import Mathlib

/-!
Verification of the Examen analysis scripts.

The repository is a set of Python scripts that read a spreadsheet of
video-consumption records and compute descriptive statistics.  This file
gives a shallow embedding of the data cleaning and aggregation steps:

- cell values are modelled as Option String (a null cell is none) or
  Option Rat for numeric columns;
- Python floats are modelled by exact rationals, and the numpy rounding
  rule (round half to even) is modelled exactly on rationals;
- the pandas crosstab of the cleaned rows is modelled by a counting
  function over the list of cleaned (REGION, GENRE) pairs, its row and
  column index by the finite sets of first and second components;
- fallible steps (missing required columns, the unguarded division) are
  modelled with Option, where none means the run aborts with no output.

Aggregation definitions are generic in the two categorical cell types,
since the Python code works uniformly in the cell values.
-/

namespace Examen

/-! ## Model of the Python string cleaning primitives -/

/-- Whitespace test used by the model of Python str.strip. -/
def esEspacio (c : Char) : Bool := c.isWhitespace

/-- Model of Python str.strip on the character list of a string: drop
leading whitespace, then drop trailing whitespace. -/
def stripLista (l : List Char) : List Char :=
  ((l.dropWhile esEspacio).reverse.dropWhile esEspacio).reverse

/-- Model of Python str.strip on strings. -/
def pstrip (s : String) : String := String.mk (stripLista s.data)

/-- Model of pandas astype(str) on one cell: a null cell becomes the
literal string nan, a string cell stays as it is. -/
def astype_str : Option String → String
  | none => "nan"
  | some s => s

/-! ## Cleaning steps of the three scripts named by the claims

The dropna call of each script runs after astype(str) on the string
columns, where no null can remain (nulls were turned into the string
nan), so it only drops rows whose numeric cells failed coercion. -/

/-- Cleaning step of dataset_exam_region_genre_relation.py (lines 47 to 52):
astype(str) and strip on both columns, dropna (a no-op at that point),
then drop rows whose REGION or GENRE is the empty string or the string
nan. -/
def limpieza_region_genero (df : List (Option String × Option String)) :
    List (String × String) :=
  (((df.map fun p => (pstrip (astype_str p.1), pstrip (astype_str p.2))).filter
      fun q => (q.1 != "") && (q.1 != "nan")).filter
    fun q => (q.2 != "") && (q.2 != "nan"))

/-- Cleaning step of dataset_exam_devices.py (lines 42 to 45): astype(str)
and strip on CUSTOMER_ID and DEVICE, then dropna, which drops nothing
because astype(str) already replaced nulls by the string nan.  No filter
for empty or nan strings is applied. -/
def limpieza_dispositivos (df : List (Option String × Option String)) :
    List (String × String) :=
  df.map fun p => (pstrip (astype_str p.1), pstrip (astype_str p.2))

/-- Cleaning step of dataset_exam_screentime_visualizations.py (lines 48
to 53): astype(str) and strip on CUSTOMER_ID, numeric coercion of
SCREENTIME (a cell that fails to parse becomes none), then dropna, which
drops exactly the rows whose SCREENTIME failed coercion. -/
def limpieza_screentime (df : List (Option String × Option ℚ)) :
    List (String × ℚ) :=
  df.filterMap fun p => p.2.map fun v => (pstrip (astype_str p.1), v)

/-! ## The region by genre aggregation -/

variable {α : Type*} {β : Type*} [DecidableEq α] [DecidableEq β]

/-- Entry of the contingency table built by pd.crosstab (line 68): the
number of cleaned records with the given region and genre. -/
def tabla_contingencia (rows : List (α × β)) (r : α) (g : β) : ℕ :=
  rows.countP fun p => decide (p.1 = r ∧ p.2 = g)

/-- Row index of the contingency table: the distinct regions. -/
def regiones (rows : List (α × β)) : Finset α :=
  rows.toFinset.image Prod.fst

/-- Column index of the contingency table: the distinct genres. -/
def generos (rows : List (α × β)) : Finset β :=
  rows.toFinset.image Prod.snd

/-- Row sum of the contingency table for one region (the sum over the
genre columns, as in sum(axis=1) on line 71 and on line 79). -/
def total_region (rows : List (α × β)) (r : α) : ℕ :=
  ∑ g ∈ generos rows, tabla_contingencia rows r g

/-- Round half to even on rationals: the rounding rule of numpy and
pandas, applied by the model to exact rationals. -/
def redondeoBanquero (q : ℚ) : ℤ :=
  if q - ⌊q⌋ < 1 / 2 then ⌊q⌋
  else if 1 / 2 < q - ⌊q⌋ then ⌊q⌋ + 1
  else if Even ⌊q⌋ then ⌊q⌋ else ⌊q⌋ + 1

/-- Model of round(x, 2): round half to even at two decimal places. -/
def round2 (q : ℚ) : ℚ := (redondeoBanquero (q * 100) : ℚ) / 100

/-- Entry of the percentage table (lines 71 and 72): the contingency count
divided by the row total, scaled to a percentage and rounded to two
decimal places. -/
def tabla_porcentajes (rows : List (α × β)) (r : α) (g : β) : ℚ :=
  round2 ((tabla_contingencia rows r g : ℚ) / (total_region rows r : ℚ) * 100)

/-- calcular_hhi (lines 108 and 109): the sum of the squares of a list of
percentages. -/
def calcular_hhi (porcentajes : List ℚ) : ℚ :=
  (porcentajes.map fun p => p ^ 2).sum

/-- Column order of the contingency table: pd.crosstab sorts the distinct
genres ascending.  The sort is modelled by insertion sort on the
duplicate-free list of genres. -/
def columnas_generos [LinearOrder β] (rows : List (α × β)) : List β :=
  List.insertionSort (fun a b => a ≤ b) (rows.map Prod.snd).dedup

/-- Row of rounded percentages of one region in column order: the values
passed to calcular_hhi on line 112. -/
def valores_fila [LinearOrder β] (rows : List (α × β)) (r : α) : List ℚ :=
  (columnas_generos rows).map fun g => tabla_porcentajes rows r g

/-- Diversity index of one region (lines 111 to 113): calcular_hhi applied
to the rounded percentage row of that region. -/
def indice_diversidad [LinearOrder β] (rows : List (α × β)) (r : α) : ℚ :=
  calcular_hhi (valores_fila rows r)

/-- Diversity tiers of the classification on lines 116 to 118. -/
inductive Nivel
  | alta
  | media
  | baja
  deriving DecidableEq

/-- Model of pd.cut with bins [0, 1500, 2500, 10000] (lines 116 to 118):
three right-closed left-open intervals; a value outside all bins gets no
label (NaN in pandas). -/
def nivel_diversidad (x : ℚ) : Option Nivel :=
  if 0 < x ∧ x ≤ 1500 then some Nivel.alta
  else if 1500 < x ∧ x ≤ 2500 then some Nivel.media
  else if 2500 < x ∧ x ≤ 10000 then some Nivel.baja
  else none

/-- Severity of a tier: high diversity is least severe, low diversity is
most severe. -/
def severidad : Nivel → ℕ
  | Nivel.alta => 0
  | Nivel.media => 1
  | Nivel.baja => 2

/-! ## Basic bridging lemmas -/

theorem tabla_contingencia_eq_count (rows : List (α × β)) (r : α) (g : β) :
    tabla_contingencia rows r g = Multiset.count (r, g) (rows : Multiset (α × β)) := by
  induction rows with
  | nil => simp [tabla_contingencia]
  | cons a t ih =>
    have hcoe : ((a :: t : List (α × β)) : Multiset (α × β)) =
        a ::ₘ (t : Multiset (α × β)) := rfl
    rw [hcoe, Multiset.count_cons]
    unfold tabla_contingencia at ih ⊢
    rw [List.countP_cons, ih]
    congr 1
    simp only [decide_eq_true_eq]
    by_cases h : a.1 = r ∧ a.2 = g
    · rw [if_pos h, if_pos (Prod.ext h.1 h.2).symm]
    · have hne : ¬(r, g) = a := by
        intro hc
        exact h (by rw [← hc]; exact ⟨rfl, rfl⟩)
      rw [if_neg h, if_neg hne]

theorem toFinset_subset_producto (rows : List (α × β)) :
    rows.toFinset ⊆ regiones rows ×ˢ generos rows := by
  intro p hp
  rw [Finset.mem_product]
  exact ⟨Finset.mem_image.mpr ⟨p, hp, rfl⟩, Finset.mem_image.mpr ⟨p, hp, rfl⟩⟩

/-- Claim C1: the entries of the contingency table, summed over every
(region, genre) pair of its index (absent pairs count zero), add up to
the number of cleaned records. -/
theorem suma_tabla_contingencia_eq_total (rows : List (α × β)) :
    ∑ r ∈ regiones rows, ∑ g ∈ generos rows, tabla_contingencia rows r g =
      rows.length := by
  have h1 : ∑ r ∈ regiones rows, ∑ g ∈ generos rows, tabla_contingencia rows r g =
      ∑ p ∈ regiones rows ×ˢ generos rows, Multiset.count p (rows : Multiset (α × β)) := by
    rw [Finset.sum_product]
    exact Finset.sum_congr rfl fun r _ =>
      Finset.sum_congr rfl fun g _ => tabla_contingencia_eq_count rows r g
  have hms : ∀ a ∈ (rows : Multiset (α × β)), a ∈ regiones rows ×ˢ generos rows := by
    intro a ha
    exact toFinset_subset_producto rows (List.mem_toFinset.mpr (Multiset.mem_coe.mp ha))
  have h2 := Multiset.sum_count_eq_card hms
  rw [Multiset.coe_card] at h2
  rw [h1]
  exact h2

/-! ## Properties of the rounding model -/

theorem abs_redondeo_sub_le (q : ℚ) : |(redondeoBanquero q : ℚ) - q| ≤ 1 / 2 := by
  have h0 := Int.floor_le q
  have h1 := Int.lt_floor_add_one q
  unfold redondeoBanquero
  split_ifs with hf hg he <;> rw [abs_le] <;> push_cast <;> constructor <;> linarith

theorem abs_round2_sub_le (q : ℚ) : |round2 q - q| ≤ 1 / 200 := by
  have h := abs_redondeo_sub_le (q * 100)
  unfold round2
  have h2 : (redondeoBanquero (q * 100) : ℚ) / 100 - q =
      ((redondeoBanquero (q * 100) : ℚ) - q * 100) / 100 := by ring
  rw [h2, abs_div]
  have h3 : |(100 : ℚ)| = 100 := by norm_num
  rw [h3]
  linarith

theorem redondeoBanquero_intCast (n : ℤ) : redondeoBanquero (n : ℚ) = n := by
  unfold redondeoBanquero
  rw [Int.floor_intCast]
  norm_num

theorem round2_cero : round2 0 = 0 := by
  have h : (0 : ℚ) * 100 = ((0 : ℤ) : ℚ) := by norm_num
  rw [round2, h, redondeoBanquero_intCast]
  norm_num

theorem round2_cien : round2 100 = 100 := by
  have h : (100 : ℚ) * 100 = ((10000 : ℤ) : ℚ) := by norm_num
  rw [round2, h, redondeoBanquero_intCast]
  norm_num

/-! ## Claim C2: the percentage table -/

theorem suma_porcentajes_sin_redondeo (rows : List (α × β)) (r : α)
    (h : 0 < total_region rows r) :
    ∑ g ∈ generos rows,
      (tabla_contingencia rows r g : ℚ) / (total_region rows r : ℚ) * 100 = 100 := by
  have hT : (total_region rows r : ℚ) ≠ 0 :=
    Nat.cast_ne_zero.mpr (Nat.pos_iff_ne_zero.mp h)
  have hcast : ∑ g ∈ generos rows, (tabla_contingencia rows r g : ℚ) =
      (total_region rows r : ℚ) := by
    rw [total_region]
    push_cast
    rfl
  rw [← Finset.sum_mul, ← Finset.sum_div, hcast]
  field_simp

/-- Claim C2: for a region with at least one cleaned record, every entry of
the percentage table is the contingency count divided by the row total,
scaled to a percentage and rounded to two decimals, and the entries of the
row sum to 100 up to the accumulated rounding error (at most 1/200 per
column). -/
theorem porcentajes_formula_y_suma (rows : List (α × β)) (r : α)
    (h : 0 < total_region rows r) :
    (∀ g ∈ generos rows, tabla_porcentajes rows r g =
        round2 ((tabla_contingencia rows r g : ℚ) / (total_region rows r : ℚ) * 100)) ∧
    |(∑ g ∈ generos rows, tabla_porcentajes rows r g) - 100| ≤
      ((generos rows).card : ℚ) / 200 := by
  refine ⟨fun g _ => rfl, ?_⟩
  have hsum := suma_porcentajes_sin_redondeo rows r h
  have hdiff : (∑ g ∈ generos rows, tabla_porcentajes rows r g) - 100 =
      ∑ g ∈ generos rows, (tabla_porcentajes rows r g -
        (tabla_contingencia rows r g : ℚ) / (total_region rows r : ℚ) * 100) := by
    rw [Finset.sum_sub_distrib, hsum]
  rw [hdiff]
  refine le_trans (Finset.abs_sum_le_sum_abs _ _) ?_
  have hb : ∀ g ∈ generos rows, |tabla_porcentajes rows r g -
      (tabla_contingencia rows r g : ℚ) / (total_region rows r : ℚ) * 100| ≤ 1 / 200 :=
    fun g _ => abs_round2_sub_le _
  refine le_trans (Finset.sum_le_sum hb) ?_
  rw [Finset.sum_const, nsmul_eq_mul]
  ring_nf
  rfl

theorem porcentajes_formula_y_suma_witness :
    |(∑ g ∈ generos [((0 : ℕ), (0 : ℕ)), (0, 1)],
        tabla_porcentajes [((0 : ℕ), (0 : ℕ)), (0, 1)] 0 g) - 100| ≤
      ((generos [((0 : ℕ), (0 : ℕ)), (0, 1)]).card : ℚ) / 200 :=
  (porcentajes_formula_y_suma _ 0 (by decide)).2

/-! ## Claim C3: the concentration index -/

theorem nodup_columnas_generos [LinearOrder β] (rows : List (α × β)) :
    (columnas_generos rows).Nodup := by
  have hperm := List.perm_insertionSort (fun a b : β => a ≤ b) (rows.map Prod.snd).dedup
  exact hperm.symm.nodup (List.nodup_dedup _)

theorem mem_columnas_generos [LinearOrder β] {rows : List (α × β)} {g : β} :
    g ∈ columnas_generos rows ↔ g ∈ generos rows := by
  unfold columnas_generos generos
  simp [List.mem_dedup, List.mem_map, Finset.mem_image, List.mem_toFinset]

theorem toFinset_columnas [LinearOrder β] (rows : List (α × β)) :
    (columnas_generos rows).toFinset = generos rows := by
  ext g
  rw [List.mem_toFinset, mem_columnas_generos]

theorem sum_map_nodup {M : Type*} [AddCommMonoid M] (l : List β) (hl : l.Nodup)
    (f : β → M) : (l.map f).sum = ∑ g ∈ l.toFinset, f g := by
  induction l with
  | nil => simp
  | cons a t ih =>
    rw [List.map_cons, List.sum_cons, List.toFinset_cons]
    have ha : a ∉ t.toFinset := by
      rw [List.mem_toFinset]
      exact (List.nodup_cons.mp hl).1
    rw [Finset.sum_insert ha, ih (List.nodup_cons.mp hl).2]

theorem indice_diversidad_eq_suma [LinearOrder β] (rows : List (α × β)) (r : α) :
    indice_diversidad rows r = ∑ g ∈ generos rows, (tabla_porcentajes rows r g) ^ 2 := by
  unfold indice_diversidad calcular_hhi valores_fila
  rw [List.map_map, sum_map_nodup _ (nodup_columnas_generos rows) _, toFinset_columnas]
  rfl

theorem tabla_porcentajes_de_cero (rows : List (α × β)) (r : α) (g : β)
    (h0 : tabla_contingencia rows r g = 0) : tabla_porcentajes rows r g = 0 := by
  unfold tabla_porcentajes
  rw [h0]
  simp [round2_cero]

/-- Claim C3: in a row whose nonzero genres all carry the same count, the
concentration index is 10000 exactly when a single genre is present, and
in general lies within 1 + N/40000 of 10000/N when N genres are present
(each rounded share differs from 100/N by at most 1/200). -/
theorem indice_concentracion [LinearOrder β] (rows : List (α × β)) (r : α) (c N : ℕ)
    (hN : ((generos rows).filter fun g => tabla_contingencia rows r g ≠ 0).card = N)
    (hc : ∀ g ∈ (generos rows).filter fun g => tabla_contingencia rows r g ≠ 0,
      tabla_contingencia rows r g = c)
    (hc0 : 0 < c) (hN0 : 0 < N) :
    (N = 1 → indice_diversidad rows r = 10000) ∧
    |indice_diversidad rows r - 10000 / (N : ℚ)| ≤ 1 + (N : ℚ) / 40000 := by
  have hNne : (N : ℚ) ≠ 0 := Nat.cast_ne_zero.mpr (Nat.pos_iff_ne_zero.mp hN0)
  have hcne : (c : ℚ) ≠ 0 := Nat.cast_ne_zero.mpr (Nat.pos_iff_ne_zero.mp hc0)
  have htot : total_region rows r = N * c := by
    have h1 : ∑ g ∈ (generos rows).filter (fun g => tabla_contingencia rows r g ≠ 0),
        tabla_contingencia rows r g =
        ∑ g ∈ generos rows, tabla_contingencia rows r g :=
      Finset.sum_filter_ne_zero _
    have h2 : ∑ g ∈ (generos rows).filter (fun g => tabla_contingencia rows r g ≠ 0),
        tabla_contingencia rows r g =
        ∑ _g ∈ (generos rows).filter (fun g => tabla_contingencia rows r g ≠ 0), c :=
      Finset.sum_congr rfl hc
    rw [total_region, ← h1, h2, Finset.sum_const, smul_eq_mul, hN]
  have hTQ : ((total_region rows r : ℕ) : ℚ) = (N : ℚ) * (c : ℚ) := by
    rw [htot]
    push_cast
    ring
  have hval : ∀ g ∈ (generos rows).filter (fun g => tabla_contingencia rows r g ≠ 0),
      tabla_porcentajes rows r g = round2 (100 / (N : ℚ)) := by
    intro g hg
    unfold tabla_porcentajes
    rw [hc g hg, hTQ]
    congr 1
    field_simp
    ring
  have hsuma : indice_diversidad rows r = (N : ℚ) * (round2 (100 / (N : ℚ))) ^ 2 := by
    rw [indice_diversidad_eq_suma,
      ← Finset.sum_filter_add_sum_filter_not (generos rows)
        (fun g => tabla_contingencia rows r g ≠ 0)]
    have hA : ∑ g ∈ (generos rows).filter (fun g => tabla_contingencia rows r g ≠ 0),
        (tabla_porcentajes rows r g) ^ 2 =
        ∑ _g ∈ (generos rows).filter (fun g => tabla_contingencia rows r g ≠ 0),
          (round2 (100 / (N : ℚ))) ^ 2 :=
      Finset.sum_congr rfl fun g hg => by rw [hval g hg]
    have hB : ∑ g ∈ (generos rows).filter (fun g => ¬tabla_contingencia rows r g ≠ 0),
        (tabla_porcentajes rows r g) ^ 2 = 0 := by
      apply Finset.sum_eq_zero
      intro g hg
      rw [tabla_porcentajes_de_cero rows r g (not_not.mp (Finset.mem_filter.mp hg).2)]
      norm_num
    rw [hA, hB, add_zero, Finset.sum_const, hN, nsmul_eq_mul]
  constructor
  · intro h1
    subst h1
    rw [hsuma]
    norm_num [round2_cien]
  · have he : |round2 (100 / (N : ℚ)) - 100 / (N : ℚ)| ≤ 1 / 200 := abs_round2_sub_le _
    set e := round2 (100 / (N : ℚ)) - 100 / (N : ℚ) with hedef
    have hp : round2 (100 / (N : ℚ)) = 100 / (N : ℚ) + e := by
      rw [hedef]
      ring
    have hiden : indice_diversidad rows r - 10000 / (N : ℚ) =
        200 * e + (N : ℚ) * e ^ 2 := by
      rw [hsuma, hp]
      field_simp
      ring
    rw [hiden]
    have he2 : e ^ 2 ≤ (1 / 200) ^ 2 := by
      calc e ^ 2 = |e| ^ 2 := (sq_abs e).symm
        _ ≤ (1 / 200) ^ 2 := by
            apply pow_le_pow_left₀ (abs_nonneg e) he
    have hNnn : (0 : ℚ) ≤ (N : ℚ) := Nat.cast_nonneg N
    calc |200 * e + (N : ℚ) * e ^ 2| ≤ |200 * e| + |(N : ℚ) * e ^ 2| := abs_add _ _
      _ = 200 * |e| + (N : ℚ) * e ^ 2 := by
          rw [abs_mul, abs_mul, abs_of_nonneg hNnn, abs_of_nonneg (sq_nonneg e),
            abs_of_nonneg (by norm_num : (0 : ℚ) ≤ 200)]
      _ ≤ 200 * (1 / 200) + (N : ℚ) * (1 / 200) ^ 2 := by
          have hx := mul_le_mul_of_nonneg_left he (by norm_num : (0 : ℚ) ≤ 200)
          have hy := mul_le_mul_of_nonneg_left he2 hNnn
          linarith
      _ = 1 + (N : ℚ) / 40000 := by ring

theorem indice_concentracion_witness :
    |indice_diversidad [((0 : ℕ), (0 : ℕ)), (0, 1)] 0 - 10000 / ((2 : ℕ) : ℚ)| ≤
      1 + ((2 : ℕ) : ℚ) / 40000 :=
  (indice_concentracion _ 0 1 2 (by decide) (by decide) (by decide) (by decide)).2

/-! ## Claim C4: the diversity tiers -/

theorem indice_diversidad_unico : indice_diversidad [((0 : ℕ), (0 : ℕ))] 0 = 10000 := by
  have hcols : columnas_generos [((0 : ℕ), (0 : ℕ))] = [0] := by decide
  have hval : tabla_porcentajes [((0 : ℕ), (0 : ℕ))] 0 0 = 100 := by
    have hc : tabla_contingencia [((0 : ℕ), (0 : ℕ))] 0 0 = 1 := by decide
    have ht : total_region [((0 : ℕ), (0 : ℕ))] 0 = 1 := by decide
    unfold tabla_porcentajes
    rw [hc, ht]
    norm_num [round2_cien]
  unfold indice_diversidad valores_fila calcular_hhi
  rw [hcols]
  simp only [List.map_cons, List.map_nil, List.sum_cons, List.sum_nil, hval]
  norm_num

/-- Claim C4 (amended): for a region whose concentration index lies in the
interval from 0 exclusive to 10000 inclusive (the range covered by the
bins of pd.cut), the tier follows the fixed thresholds: at most 1500 is
high diversity, at most 2500 is medium diversity, above 2500 is low
diversity.  Outside that interval pd.cut assigns no tier. -/
theorem niveles_por_umbral [LinearOrder β] (rows : List (α × β)) (r : α)
    (h0 : 0 < indice_diversidad rows r) (h10 : indice_diversidad rows r ≤ 10000) :
    (indice_diversidad rows r ≤ 1500 →
      nivel_diversidad (indice_diversidad rows r) = some Nivel.alta) ∧
    (1500 < indice_diversidad rows r → indice_diversidad rows r ≤ 2500 →
      nivel_diversidad (indice_diversidad rows r) = some Nivel.media) ∧
    (2500 < indice_diversidad rows r →
      nivel_diversidad (indice_diversidad rows r) = some Nivel.baja) := by
  set x := indice_diversidad rows r with hx
  refine ⟨fun h => ?_, fun ha hb => ?_, fun h => ?_⟩
  · unfold nivel_diversidad
    rw [if_pos ⟨h0, h⟩]
  · unfold nivel_diversidad
    rw [if_neg fun hcon => absurd hcon.2 (not_le.mpr ha), if_pos ⟨ha, hb⟩]
  · unfold nivel_diversidad
    rw [if_neg fun hcon => absurd hcon.2 (not_le.mpr (lt_trans (by norm_num) h)),
      if_neg fun hcon => absurd hcon.2 (not_le.mpr h), if_pos ⟨h, h10⟩]

theorem niveles_por_umbral_witness :
    nivel_diversidad (indice_diversidad [((0 : ℕ), (0 : ℕ))] 0) = some Nivel.baja :=
  (niveles_por_umbral [((0 : ℕ), (0 : ℕ))] 0 (by rw [indice_diversidad_unico]; norm_num)
      (by rw [indice_diversidad_unico])).2.2
    (by rw [indice_diversidad_unico]; norm_num)

/-- Dataset with one region and 20001 distinct genres carrying one record
each: every exact share is 100/20001 percent, below half of the last kept
decimal, so every rounded share is 0 and the concentration index of the
region is 0, a value outside the bins of pd.cut. -/
def filas_patologicas : List (ℕ × ℕ) := (List.range 20001).map fun i => (0, i)

theorem tabla_contingencia_patologica (g : ℕ) (hg : g < 20001) :
    tabla_contingencia filas_patologicas 0 g = 1 := by
  rw [tabla_contingencia_eq_count]
  have hcoe : (filas_patologicas : Multiset (ℕ × ℕ)) =
      Multiset.map (fun i => (0, i)) (Multiset.range 20001) := by
    rw [← Multiset.coe_range, Multiset.map_coe]
    rfl
  rw [hcoe]
  have hinj : Function.Injective fun i : ℕ => ((0, i) : ℕ × ℕ) := by
    intro i j hij
    simpa using hij
  have h1 : Multiset.count ((fun i : ℕ => ((0, i) : ℕ × ℕ)) g)
      (Multiset.map (fun i => (0, i)) (Multiset.range 20001)) =
      Multiset.count g (Multiset.range 20001) :=
    Multiset.count_map_eq_count' _ _ hinj g
  have h2 : Multiset.count g (Multiset.range 20001) = 1 :=
    Multiset.count_eq_one_of_mem (Multiset.nodup_range 20001)
      (Multiset.mem_range.mpr hg)
  exact h1.trans h2

theorem generos_patologicos : generos filas_patologicas = Finset.range 20001 := by
  ext g
  unfold generos filas_patologicas
  simp only [Finset.mem_image, List.mem_toFinset, List.mem_map, List.mem_range,
    Finset.mem_range]
  constructor
  · rintro ⟨p, ⟨i, hi, rfl⟩, rfl⟩
    exact hi
  · intro hg
    exact ⟨(0, g), ⟨g, hg, rfl⟩, rfl⟩

theorem total_region_patologico : total_region filas_patologicas 0 = 20001 := by
  rw [total_region, generos_patologicos]
  rw [Finset.sum_congr rfl fun g hg =>
    tabla_contingencia_patologica g (Finset.mem_range.mp hg)]
  simp

theorem porcentaje_patologico (g : ℕ) (hg : g ∈ generos filas_patologicas) :
    tabla_porcentajes filas_patologicas 0 g = 0 := by
  have hlt : g < 20001 := by
    rwa [generos_patologicos, Finset.mem_range] at hg
  unfold tabla_porcentajes
  rw [tabla_contingencia_patologica g hlt, total_region_patologico]
  have hx : ((1 : ℕ) : ℚ) / ((20001 : ℕ) : ℚ) * 100 = 100 / 20001 := by
    push_cast
    ring
  rw [hx]
  unfold round2 redondeoBanquero
  have harg2 : (100 : ℚ) / 20001 * 100 = 10000 / 20001 := by ring
  rw [harg2]
  have hfl : ⌊(10000 : ℚ) / 20001⌋ = 0 := by
    rw [Int.floor_eq_zero_iff, Set.mem_Ico]
    constructor <;> norm_num
  rw [hfl]
  rw [if_pos (by norm_num)]
  norm_num

theorem indice_patologico : indice_diversidad filas_patologicas 0 = 0 := by
  unfold indice_diversidad calcular_hhi valores_fila
  apply List.sum_eq_zero
  intro x hx
  rw [List.map_map, List.mem_map] at hx
  obtain ⟨g, hg, rfl⟩ := hx
  simp only [Function.comp]
  rw [porcentaje_patologico g (mem_columnas_generos.mp hg)]
  norm_num

/-- Claim C4 counterexample: the region of filas_patologicas has cleaned
records and a concentration index of 0, which is at most 1500, yet the
assigned tier is not the high diversity tier (pd.cut leaves the value 0
outside every bin, since its lowest bin is left-open at 0). -/
theorem nivel_contraejemplo :
    (0, 0) ∈ filas_patologicas ∧
    indice_diversidad filas_patologicas 0 ≤ 1500 ∧
    nivel_diversidad (indice_diversidad filas_patologicas 0) ≠ some Nivel.alta := by
  refine ⟨?_, ?_, ?_⟩
  · unfold filas_patologicas
    rw [List.mem_map]
    exact ⟨0, by simp⟩
  · rw [indice_patologico]
    norm_num
  · rw [indice_patologico]
    unfold nivel_diversidad
    rw [if_neg (by norm_num), if_neg (by norm_num), if_neg (by norm_num)]
    exact fun h => Option.noConfusion h

/-! ## Claim C5: monotonicity of the tier assignment -/

theorem nivel_caracterizacion (x : ℚ) (a : Nivel) (ha : nivel_diversidad x = some a) :
    (severidad a = 0 ∧ x ≤ 1500) ∨ (severidad a = 1 ∧ 1500 < x ∧ x ≤ 2500) ∨
      (severidad a = 2 ∧ 2500 < x) := by
  unfold nivel_diversidad at ha
  by_cases h1 : 0 < x ∧ x ≤ 1500
  · rw [if_pos h1] at ha
    cases ha
    exact Or.inl ⟨rfl, h1.2⟩
  · rw [if_neg h1] at ha
    by_cases h2 : 1500 < x ∧ x ≤ 2500
    · rw [if_pos h2] at ha
      cases ha
      exact Or.inr (Or.inl ⟨rfl, h2.1, h2.2⟩)
    · rw [if_neg h2] at ha
      by_cases h3 : 2500 < x ∧ x ≤ 10000
      · rw [if_pos h3] at ha
        cases ha
        exact Or.inr (Or.inr ⟨rfl, h3.1⟩)
      · rw [if_neg h3] at ha
        exact absurd ha (by simp)

/-- Claim C5: wherever the binning assigns a tier, the assignment is
monotone in the concentration index: a larger index never gets a less
severe tier, with severity ordered high, medium, low. -/
theorem nivel_monotono (x y : ℚ) (a b : Nivel) (hxy : x ≤ y)
    (ha : nivel_diversidad x = some a) (hb : nivel_diversidad y = some b) :
    severidad a ≤ severidad b := by
  rcases nivel_caracterizacion x a ha with ⟨ea, hx1⟩ | ⟨ea, hx1, hx2⟩ | ⟨ea, hx1⟩ <;>
    rcases nivel_caracterizacion y b hb with ⟨eb, hy1⟩ | ⟨eb, hy1, hy2⟩ | ⟨eb, hy1⟩ <;>
    rw [ea, eb] <;> first
      | omega
      | (exfalso; linarith)

theorem nivel_monotono_witness : severidad Nivel.alta ≤ severidad Nivel.baja :=
  nivel_monotono 1000 3000 Nivel.alta Nivel.baja (by norm_num)
    (by unfold nivel_diversidad
        rw [if_pos (by norm_num)])
    (by unfold nivel_diversidad
        rw [if_neg (by norm_num), if_neg (by norm_num), if_pos (by norm_num)])

/-! ## Claim C6: missing required columns abort the run -/

/-- Required columns of the region genre script (line 39). -/
def columnas_requeridas_region_genero : List String := ["REGION", "GENRE"]

/-- Required columns of the devices script (line 34). -/
def columnas_requeridas_dispositivos : List String := ["CUSTOMER_ID", "DEVICE"]

/-- Model of analizar_relacion_region_genero up to the column validation
(lines 39 to 44): given the column names of the sheet and the two
projected columns, the run returns early with no output when a required
column is missing, and otherwise proceeds to the cleaning step. -/
def analizar_relacion_region_genero (cols : List String)
    (df : List (Option String × Option String)) : Option (List (String × String)) :=
  if (columnas_requeridas_region_genero.all fun c => cols.contains c) = true then
    some (limpieza_region_genero df)
  else none

/-- Model of analizar_dispositivos_por_cliente up to the column validation
(lines 34 to 39 of dataset_exam_devices.py). -/
def analizar_dispositivos_por_cliente (cols : List String)
    (df : List (Option String × Option String)) : Option (List (String × String)) :=
  if (columnas_requeridas_dispositivos.all fun c => cols.contains c) = true then
    some (limpieza_dispositivos df)
  else none

/-- Claim C6: when a required column is absent from the sheet, the
analysis aborts and produces nothing of the output: the model returns none,
with no aggregation computed, in both scripts cited by the claim. -/
theorem columnas_faltantes_abortan (cols1 cols2 : List String)
    (df1 df2 : List (Option String × Option String))
    (h1 : ∃ c ∈ columnas_requeridas_region_genero, cols1.contains c = false)
    (h2 : ∃ c ∈ columnas_requeridas_dispositivos, cols2.contains c = false) :
    analizar_relacion_region_genero cols1 df1 = none ∧
    analizar_dispositivos_por_cliente cols2 df2 = none := by
  obtain ⟨c1, hc1, hf1⟩ := h1
  obtain ⟨c2, hc2, hf2⟩ := h2
  constructor
  · unfold analizar_relacion_region_genero
    have hneg : ¬(columnas_requeridas_region_genero.all fun c => cols1.contains c) = true := by
      rw [List.all_eq_true]
      intro hall
      have hx := hall c1 hc1
      rw [hf1] at hx
      exact Bool.noConfusion hx
    rw [if_neg hneg]
  · unfold analizar_dispositivos_por_cliente
    have hneg : ¬(columnas_requeridas_dispositivos.all fun c => cols2.contains c) = true := by
      rw [List.all_eq_true]
      intro hall
      have hx := hall c2 hc2
      rw [hf2] at hx
      exact Bool.noConfusion hx
    rw [if_neg hneg]

theorem columnas_faltantes_abortan_witness :
    analizar_relacion_region_genero ["REGION"] [] = none ∧
    analizar_dispositivos_por_cliente ["DEVICE"] [] = none :=
  columnas_faltantes_abortan ["REGION"] ["DEVICE"] [] []
    ⟨"GENRE", by decide, by decide⟩ ⟨"CUSTOMER_ID", by decide, by decide⟩

/-! ## Claim C7: empty cleaned input hits an unguarded division -/

/-- Model of analizar_customer_ids of dataset_exam_customers.py: dropna
then astype(str) gives the cleaned id list (line 39); the script counts
occurrences (line 54) and at line 86 divides by the number of distinct
ids with no guard.  With zero cleaned ids that division raises
ZeroDivisionError, the blanket handler only prints a message, and the run
ends before the result file is written: modelled by none.  Otherwise the
run yields the frequency table that is saved to the output file. -/
def analizar_customer_ids (df : List (Option String)) :
    Option (List (String × ℕ)) :=
  let ids := df.filterMap id
  if ids.dedup.length = 0 then none
  else some (ids.dedup.map fun c => (c, ids.count c))

/-- Claim C7: on an input whose cleaned record set is empty the customers
script produces no defined validation error: it reaches the unguarded
division by the distinct count, raising ZeroDivisionError into the
blanket handler, and no output is produced.  The model evaluates to none
on such an input. -/
theorem customer_ids_vacio_aborta : analizar_customer_ids [none] = none := rfl

/-! ## Claim C10: the per customer device analysis -/

/-- Distinct devices of one customer (lines 48 to 63 of
dataset_exam_devices.py): the set of DEVICE values of the cleaned rows of
that customer, modelled as a duplicate-free list. -/
def dispositivos_cliente (rows : List (α × β)) (c : α) : List β :=
  ((rows.filter fun p => p.1 == c).map Prod.snd).dedup

/-- Record count of one customer (lines 49, 57 and 65). -/
def registros_cliente (rows : List (α × β)) (c : α) : ℕ :=
  (rows.filter fun p => p.1 == c).length

/-- The multiple devices flag of line 71. -/
def usa_multiples_dispositivos (rows : List (α × β)) (c : α) : String :=
  if 1 < (dispositivos_cliente rows c).length then ("Sí") else ("No")

/-- Claim C10: for every customer present in the cleaned rows, the
distinct device count is at least 1 and at most the record count of that
customer, and the multiple devices flag is the string Sí exactly when the
distinct device count exceeds 1. -/
theorem dispositivos_por_cliente (rows : List (α × β)) (c : α)
    (hc : c ∈ rows.map Prod.fst) :
    1 ≤ (dispositivos_cliente rows c).length ∧
    (dispositivos_cliente rows c).length ≤ registros_cliente rows c ∧
    (usa_multiples_dispositivos rows c = "Sí" ↔
      1 < (dispositivos_cliente rows c).length) := by
  obtain ⟨p, hp, hpc⟩ := List.mem_map.mp hc
  refine ⟨?_, ?_, ?_⟩
  · have hmem : p ∈ rows.filter fun q => q.1 == c := by
      rw [List.mem_filter]
      exact ⟨hp, beq_iff_eq.mpr hpc⟩
    have hne : dispositivos_cliente rows c ≠ [] := by
      unfold dispositivos_cliente
      rw [Ne, List.dedup_eq_nil]
      intro hnil
      rw [List.map_eq_nil_iff] at hnil
      rw [hnil] at hmem
      exact absurd hmem (List.not_mem_nil p)
    exact List.length_pos.mpr hne
  · unfold dispositivos_cliente registros_cliente
    calc ((rows.filter fun q => q.1 == c).map Prod.snd).dedup.length
        ≤ ((rows.filter fun q => q.1 == c).map Prod.snd).length :=
          (List.dedup_sublist _).length_le
      _ = (rows.filter fun q => q.1 == c).length := List.length_map _ _
  · unfold usa_multiples_dispositivos
    by_cases h : 1 < (dispositivos_cliente rows c).length
    · rw [if_pos h]
      exact ⟨fun _ => h, fun _ => rfl⟩
    · rw [if_neg h]
      constructor
      · intro hs
        exact absurd hs (by decide)
      · intro h1
        exact absurd h1 h

theorem dispositivos_por_cliente_witness :
    1 ≤ (dispositivos_cliente [((0 : ℕ), (0 : ℕ)), (0, 1)] 0).length ∧
    (dispositivos_cliente [((0 : ℕ), (0 : ℕ)), (0, 1)] 0).length ≤
      registros_cliente [((0 : ℕ), (0 : ℕ)), (0, 1)] 0 ∧
    (usa_multiples_dispositivos [((0 : ℕ), (0 : ℕ)), (0, 1)] 0 = "Sí" ↔
      1 < (dispositivos_cliente [((0 : ℕ), (0 : ℕ)), (0, 1)] 0).length) :=
  dispositivos_por_cliente _ 0 (by decide)

/-! ## Claim C8: the cleaning invariant -/

theorem dropWhile_head_false {γ : Type*} (p : γ → Bool) (l : List γ) {x : γ}
    (hx : (l.dropWhile p).head? = some x) : p x = false := by
  have h := List.head?_dropWhile_not p l
  rw [hx] at h
  exact h

theorem dropWhile_eq_self_de_head {γ : Type*} (p : γ → Bool) (l : List γ)
    (h : ∀ x, l.head? = some x → p x = false) : l.dropWhile p = l := by
  cases l with
  | nil => rfl
  | cons a t =>
    rw [List.dropWhile_cons, h a rfl]
    simp

theorem getLast?_dropWhile_ne_nil {γ : Type*} (p : γ → Bool) (l : List γ)
    (h : l.dropWhile p ≠ []) : (l.dropWhile p).getLast? = l.getLast? := by
  induction l with
  | nil => rfl
  | cons a t ih =>
    rw [List.dropWhile_cons] at h ⊢
    by_cases hpa : p a = true
    · rw [if_pos hpa] at h ⊢
      cases t with
      | nil => exact absurd rfl h
      | cons b u =>
        rw [ih h, List.getLast?_cons_cons]
    · rw [if_neg hpa] at h ⊢

theorem stripLista_idem (l : List Char) :
    stripLista (stripLista l) = stripLista l := by
  by_cases hw : (l.dropWhile esEspacio).reverse.dropWhile esEspacio = []
  · unfold stripLista
    rw [hw]
    rfl
  · have hhead : ∀ x,
        ((l.dropWhile esEspacio).reverse.dropWhile esEspacio).reverse.head? = some x →
          esEspacio x = false := by
      intro x hx
      rw [List.head?_reverse, getLast?_dropWhile_ne_nil _ _ hw,
        List.getLast?_reverse] at hx
      exact dropWhile_head_false esEspacio l hx
    have hhead2 : ∀ x,
        ((l.dropWhile esEspacio).reverse.dropWhile esEspacio).head? = some x →
          esEspacio x = false :=
      fun x hx => dropWhile_head_false esEspacio (l.dropWhile esEspacio).reverse hx
    unfold stripLista
    rw [dropWhile_eq_self_de_head _ _ hhead, List.reverse_reverse,
      dropWhile_eq_self_de_head _ _ hhead2]

theorem pstrip_idem (s : String) : pstrip (pstrip s) = pstrip s := by
  unfold pstrip
  rw [show (String.mk (stripLista s.data)).data = stripLista s.data from rfl,
    stripLista_idem]

/-- Claim C8 counterexample: the devices script retains a record whose
CUSTOMER_ID field is the empty string (a whitespace-only cell is stripped
to the empty string and the script applies no emptiness filter), so not
every retained record has non-empty string fields. -/
theorem limpieza_no_filtra_vacios :
    limpieza_dispositivos [(some ("   "), some ("TV"))] = [("", "TV")] := by
  decide

/-- Claim C8 (amended): every record retained by the region genre cleaning
has both fields trimmed, non-empty and different from the nan
placeholder.  The devices and screentime cleanings only guarantee trimmed
string fields: a null cell becomes the literal string nan and an empty or
whitespace-only cell is retained as the empty string.  The screentime
cleaning drops exactly the records whose numeric cell failed coercion, so
the numeric field of a retained record is a number by construction. -/
theorem limpieza_invariantes (df1 df2 : List (Option String × Option String))
    (df3 : List (Option String × Option ℚ)) (p q : String × String) (s : String × ℚ)
    (hp : p ∈ limpieza_region_genero df1) (hq : q ∈ limpieza_dispositivos df2)
    (hs : s ∈ limpieza_screentime df3) :
    (p.1 ≠ "" ∧ p.1 ≠ "nan" ∧ pstrip p.1 = p.1 ∧
      p.2 ≠ "" ∧ p.2 ≠ "nan" ∧ pstrip p.2 = p.2) ∧
    (pstrip q.1 = q.1 ∧ pstrip q.2 = q.2) ∧
    pstrip s.1 = s.1 := by
  refine ⟨?_, ?_, ?_⟩
  · unfold limpieza_region_genero at hp
    have hp2 := List.mem_filter.mp hp
    have hcond2 := hp2.2
    have hp3 := List.mem_filter.mp hp2.1
    have hcond1 := hp3.2
    obtain ⟨cell, _, hpe⟩ := List.mem_map.mp hp3.1
    rw [Bool.and_eq_true] at hcond1 hcond2
    refine ⟨bne_iff_ne.mp hcond1.1, bne_iff_ne.mp hcond1.2, ?_,
      bne_iff_ne.mp hcond2.1, bne_iff_ne.mp hcond2.2, ?_⟩
    · rw [← hpe]
      exact pstrip_idem _
    · rw [← hpe]
      exact pstrip_idem _
  · obtain ⟨cell, _, hqe⟩ := List.mem_map.mp hq
    constructor
    · rw [← hqe]
      exact pstrip_idem _
    · rw [← hqe]
      exact pstrip_idem _
  · obtain ⟨cell, _, heq⟩ := List.mem_filterMap.mp hs
    cases hc2 : cell.2 with
    | none =>
      rw [hc2] at heq
      exact absurd heq (by simp)
    | some v =>
      rw [hc2] at heq
      have h2 : some (pstrip (astype_str cell.1), v) = some s := heq
      cases h2
      exact pstrip_idem _

theorem limpieza_invariantes_witness :
    (("A" : String) ≠ "" ∧ ("A" : String) ≠ "nan" ∧ pstrip ("A") = "A" ∧
      ("B" : String) ≠ "" ∧ ("B" : String) ≠ "nan" ∧ pstrip ("B") = "B") ∧
    (pstrip ("C") = "C" ∧ pstrip ("TV") = "TV") ∧
    pstrip ("D") = "D" :=
  limpieza_invariantes [(some ("A"), some ("B"))] [(some ("C"), some ("TV"))]
    [(some ("D"), some 1)] ("A", "B") ("C", "TV") ("D", 1)
    (by decide) (by decide) (by decide)

/-! ## Claim C9: the top three ranking of a region -/

/-- Descending comparison by count used by the nlargest model: an entry
comes before another when its count is at least as large. -/
def ordenDesc {γ : Type*} : (γ × ℕ) → (γ × ℕ) → Prop := fun a b => b.2 ≤ a.2

instance {γ : Type*} : DecidableRel (ordenDesc (γ := γ)) :=
  fun a b => inferInstanceAs (Decidable (b.2 ≤ a.2))

instance {γ : Type*} : IsTotal (γ × ℕ) ordenDesc :=
  ⟨fun a b => le_total b.2 a.2⟩

instance {γ : Type*} : IsTrans (γ × ℕ) ordenDesc :=
  ⟨fun _ _ _ hab hbc => le_trans hbc hab⟩

/-- Row of (genre, count) pairs of one region in the column order of the
contingency table (line 78). -/
def fila_conteos [LinearOrder β] (rows : List (α × β)) (r : α) : List (β × ℕ) :=
  (columnas_generos rows).map fun g => (g, tabla_contingencia rows r g)

/-- Model of Series.nlargest(3) with the default keep equal to first
(line 82): a stable descending sort by count followed by taking the first
three entries. -/
def top_generos [LinearOrder β] (rows : List (α × β)) (r : α) : List (β × ℕ) :=
  (List.insertionSort ordenDesc (fila_conteos rows r)).take 3

theorem filtro_orderedInsert {γ : Type*} (k : ℕ) (x : γ × ℕ) (l : List (γ × ℕ)) :
    (List.orderedInsert ordenDesc x l).filter (fun p => p.2 == k) =
      if x.2 = k then x :: l.filter (fun p => p.2 == k)
      else l.filter (fun p => p.2 == k) := by
  induction l with
  | nil =>
    by_cases hx : x.2 = k <;> simp [List.orderedInsert_nil, hx]
  | cons y t ih =>
    simp only [List.orderedInsert]
    by_cases hxy : ordenDesc x y
    · rw [if_pos hxy]
      by_cases hx : x.2 = k <;> simp [List.filter_cons, hx]
    · rw [if_neg hxy]
      have hlt : x.2 < y.2 := not_le.mp hxy
      by_cases hyk : y.2 = k
      · have hx : ¬x.2 = k := by
          intro hxk
          omega
        simp [List.filter_cons, hyk, hx, ih]
      · simp [List.filter_cons, hyk, ih]

theorem filtro_insertionSort {γ : Type*} (k : ℕ) (l : List (γ × ℕ)) :
    (List.insertionSort ordenDesc l).filter (fun p => p.2 == k) =
      l.filter (fun p => p.2 == k) := by
  induction l with
  | nil => rfl
  | cons x t ih =>
    simp only [List.insertionSort]
    rw [filtro_orderedInsert]
    by_cases hx : x.2 = k
    · rw [if_pos hx, ih, List.filter_cons, if_pos (by simp [hx])]
    · rw [if_neg hx, ih, List.filter_cons, if_neg (by simp [hx])]

/-- Claim C9: the top three list of a region is sorted by count
descending (every entry has a count at least that of any later entry),
its entries come from the contingency row of the region, and ties keep
the stable column order of the table: on the fully sorted row the entries
with a given count are exactly, and in the same order as, the entries of
the row with that count, and the top three list restricted to a count is
an in-order sublist of the row restricted to that count. -/
theorem top_generos_ordenado [LinearOrder β] (rows : List (α × β)) (r : α) :
    List.Sorted ordenDesc (top_generos rows r) ∧
    (∀ p ∈ top_generos rows r, p ∈ fila_conteos rows r) ∧
    (∀ k : ℕ, (List.insertionSort ordenDesc (fila_conteos rows r)).filter
        (fun p => p.2 == k) = (fila_conteos rows r).filter (fun p => p.2 == k)) ∧
    (∀ k : ℕ, List.Sublist ((top_generos rows r).filter fun p => p.2 == k)
      ((fila_conteos rows r).filter fun p => p.2 == k)) := by
  have hsorted : List.Sorted ordenDesc
      (List.insertionSort ordenDesc (fila_conteos rows r)) :=
    List.sorted_insertionSort ordenDesc (fila_conteos rows r)
  refine ⟨?_, ?_, fun k => filtro_insertionSort k _, fun k => ?_⟩
  · exact List.Pairwise.sublist
      (List.take_sublist 3 (List.insertionSort ordenDesc (fila_conteos rows r))) hsorted
  · intro p hp
    have h1 : p ∈ List.insertionSort ordenDesc (fila_conteos rows r) :=
      (List.take_sublist 3 _).subset hp
    simpa using h1
  · have h2 : List.Sublist ((top_generos rows r).filter fun p => p.2 == k)
        ((List.insertionSort ordenDesc (fila_conteos rows r)).filter
          fun p => p.2 == k) :=
      (List.take_sublist 3 _).filter _
    rw [filtro_insertionSort] at h2
    exact h2

theorem top_generos_ordenado_witness :
    List.Sorted ordenDesc (top_generos [((0 : ℕ), (0 : ℕ)), (0, 1)] 0) :=
  (top_generos_ordenado [((0 : ℕ), (0 : ℕ)), (0, 1)] 0).1

end Examen
